import Mathlib

/-!
# Apollo firmware: FPGA status protocol and shared USB port arbiter

Shallow embedding of

* `firmware/src/fpga_status.c` (STATUS register decode, BUSY poll),
* `firmware/src/boards/luna_d11/usb_switch.c` (ownership of the shared USB port),
* `firmware/src/boards/luna_d21/usb_switch.c` (the same interface without a switch), and
* `firmware/src/boards/luna_d11/fpga.c` (the PROGRAM control line),

together with the properties of the specification that concern them.

Conventions of the embedding:

* machine words are natural numbers; `uint32_t` subtraction is taken modulo `2 ^ 32`;
* calls into external collaborators (TinyUSB, GPIO, LED, JTAG driver) are recorded, in
  program order, in an effect trace carried by the state;
* values read from the environment (`board_millis()`, `gpio_get_pin_level`, the bits
  captured by the TAP) are inputs of the embedded function.
-/

/-! ## `firmware/src/fpga_status.c` -/

namespace fpga_status

/-- Opcode for retrieving the STATUS register. -/
def LSC_READ_STATUS : Nat := 0x3C

/-- STATUS register field: configuration done (bit 8). -/
def FLAG_DONE : Nat := 1 <<< 8

/-- STATUS register field: configuration in progress (bit 12). -/
def FLAG_BUSY : Nat := 1 <<< 12

/-- STATUS register field: invalid command (bit 28). -/
def FLAG_INVALID_COMMAND : Nat := 1 <<< 28

/-- STATUS register field: execution fail (bit 26). -/
def FLAG_EXECUTION_FAIL : Nat := 1 <<< 26

/-- STATUS register field: BSE error code (bits 23 to 25), `0b000` meaning no error. -/
def MASK_BSE_ERROR_CODE : Nat := 7 <<< 23

/-- All the error fields of the STATUS register. -/
def ERROR_MASK : Nat :=
  MASK_BSE_ERROR_CODE ||| FLAG_EXECUTION_FAIL ||| FLAG_INVALID_COMMAND

/-- TAP states that `read_fpga_status` asks the driver to move to. -/
inductive jtag_state where
  | STATE_SHIFT_IR
  | STATE_PAUSE_IR
  | STATE_SHIFT_DR
  | STATE_PAUSE_DR
  deriving DecidableEq

/-- Calls made by `fpga_status.c` into the JTAG driver, and its own spin delay. -/
inductive Call where
  | jtag_init
  | jtag_deinit
  | jtag_go_to_state (state : jtag_state)
  | jtag_tap_shift (out_buffer : List Nat) (bits : Nat) (must_end : Nat)
  | delay (cycles : Nat)
  deriving DecidableEq

/-- The TAP session as seen by `fpga_status.c`: how many shifts have been issued so far
(which selects what the next shift captures) and the calls made, in program order. -/
structure Tap where
  shifts : Nat
  calls : List Call
  deriving DecidableEq

/-- Record one call in the trace. -/
def Tap.call (c : Call) (t : Tap) : Tap :=
  { t with calls := t.calls ++ [c] }

/-- Spin delay: `while (cycles-- != 0) __NOP();`. -/
def delay (cycles : Nat) (t : Tap) : Tap := t.call (.delay cycles)

/-- Driver call `jtag_init()`. -/
def jtag_init (t : Tap) : Tap := t.call .jtag_init

/-- Driver call `jtag_deinit()`. -/
def jtag_deinit (t : Tap) : Tap := t.call .jtag_deinit

/-- Driver call `jtag_go_to_state(state)`. -/
def jtag_go_to_state (state : jtag_state) (t : Tap) : Tap :=
  t.call (.jtag_go_to_state state)

/-- Modelled from the spec: the store of `jtag_tap_shift` into its `in_buffer` (the driver,
`jtag.c`, is not part of the sources at hand).  The captured bits `captured` (bit `0`
received first) overwrite the first `(bits + 7) / 8` bytes of the little-endian 32-bit
variable `status`; the remaining bytes keep their value. -/
def store_captured (status captured bits : Nat) : Nat :=
  let n := 8 * ((bits + 7) / 8)
  ((status / 2 ^ n) * 2 ^ n + captured % 2 ^ n) % 2 ^ 32

/-- Driver call `jtag_tap_shift(out_buffer, (uint8_t*)&status, bits, must_end)`.  The bits
that the TAP returns on its `k`-th shift are the input `tdo k`. -/
def jtag_tap_shift (tdo : Nat → Nat) (out_buffer : List Nat) (bits must_end : Nat)
    (status : Nat) (t : Tap) : Nat × Tap :=
  (store_captured status (tdo t.shifts) bits,
    { shifts := t.shifts + 1
      calls := t.calls ++ [.jtag_tap_shift out_buffer bits must_end] })

/-- Returns the STATUS register from the FPGA.  The indeterminate initial content of the
local `status` is taken to be `0`; every byte of it is overwritten by the 32-bit capture
before it is returned. -/
def read_fpga_status (tdo : Nat → Nat) (t : Tap) : Nat × Tap :=
  let out_buffer : List Nat := [0, 0, 0, 0]
  let status : Nat := 0
  let t := jtag_go_to_state .STATE_SHIFT_IR t
  let out_buffer := out_buffer.set 0 LSC_READ_STATUS
  let r := jtag_tap_shift tdo out_buffer 8 1 status t
  let t := jtag_go_to_state .STATE_PAUSE_IR r.2
  let t := jtag_go_to_state .STATE_SHIFT_DR t
  let out_buffer := out_buffer.set 0 0
  let r := jtag_tap_shift tdo out_buffer 32 1 r.1 t
  let t := jtag_go_to_state .STATE_PAUSE_DR r.2
  (r.1, t)

/-- The loop `while ((status = read_fpga_status()) & FLAG_BUSY) delay(100000);` of
`fpga_configured_ok`.  The C loop has no iteration cap; `fuel` bounds the number of reads
of the model, and `none` means that the fuel ran out with BUSY still set. -/
def busy_poll (tdo : Nat → Nat) : Nat → Tap → Option (Nat × Tap)
  | 0, _ => none
  | fuel + 1, t =>
    let r := read_fpga_status tdo t
    if r.1 &&& FLAG_BUSY != 0 then busy_poll tdo fuel (delay 100000 r.2)
    else some r

/-- Decide the configuration result from the STATUS flags (the final `if` of
`fpga_configured_ok`). -/
def configuration_result (status : Nat) : Bool :=
  if (status &&& FLAG_DONE != 0) && !(status &&& ERROR_MASK != 0) then true else false

/-- Returns whether the FPGA was configured correctly or not. -/
def fpga_configured_ok (tdo : Nat → Nat) (fuel : Nat) (t : Tap) : Option (Bool × Tap) :=
  let t := jtag_init t
  match busy_poll tdo fuel t with
  | none => none
  | some (status, t) =>
    let t := jtag_deinit t
    some (configuration_result status, t)

/-- The status word that the `i`-th call (counted from `0`) of `read_fpga_status` returns
in a session in which `t.shifts` shifts were issued before the first call; every call
issues two shifts. -/
def status_word (tdo : Nat → Nat) (t : Tap) (i : Nat) : Nat :=
  (read_fpga_status tdo { t with shifts := t.shifts + 2 * i }).1

/-- The driver calls of one `read_fpga_status`, as it adds them to an empty trace. -/
def read_calls : List Call :=
  (read_fpga_status (fun _ => 0) ⟨0, []⟩).2.calls

/-- The calls of a BUSY poll made of `k` reads each followed by the inter-poll delay, and
then a last read. -/
def poll_calls (k : Nat) : List Call :=
  (List.replicate k (read_calls ++ [Call.delay 100000])).flatten ++ read_calls

end fpga_status

/-! ## `firmware/src/boards/luna_d11/usb_switch.c` -/

namespace luna_d11

/-- GPIO pins used by the switch control. -/
inductive Pin where
  | PROGRAM_BUTTON
  | FPGA_INT
  | USB_SWITCH
  deriving DecidableEq

/-- Microcontroller LEDs. -/
inductive led_t where
  | LED_A
  | LED_B
  | LED_C
  | LED_D
  | LED_E
  deriving DecidableEq

/-- Pull modes of the GPIO driver. -/
inductive gpio_pull_mode where
  | GPIO_PULL_OFF
  | GPIO_PULL_UP
  deriving DecidableEq

/-- Pin directions of the GPIO driver. -/
inductive gpio_direction where
  | GPIO_DIRECTION_IN
  | GPIO_DIRECTION_OUT
  deriving DecidableEq

/-- Set-up steps of the FPGA_ADV serial port made by `fpga_adv_init`: writes to the
SERCOM1 USART registers and calls into the pin multiplexer, the clock system and the
interrupt controller.  Register values are kept as the fields that the source names. -/
inductive sercom_setup where
  | CTRLA_ENABLE (bit : Nat)
  | CTRLA_SWRST (bit : Nat)
  | gpio_set_pin_function_PA09_SERCOM1_PAD3
  | pm_enable_bus_clock_SERCOM1
  | gclk_enable_channel_SERCOM1_GCLK0
  | CTRLA_DORD_RXPO_SAMPR_FORM_RUNSTDBY_INT_CLK (rxpo sampr form : Nat)
  | BAUD (baud : Nat)
  | CTRLB_CHSIZE_RXEN (chsize : Nat)
  | INTENSET_RXC
  | NVIC_EnableIRQ_SERCOM1
  deriving DecidableEq

/-- Calls into the external collaborators (TinyUSB device stack, board support, GPIO and
LED drivers, SERCOM peripheral) made by the switch control. -/
inductive Effect where
  | tud_disconnect
  | tud_connect
  | board_delay (ms : Nat)
  | gpio_set_pin_level (pin : Pin) (level : Bool)
  | led_on (led : led_t)
  | led_off (led : led_t)
  | gpio_set_pin_pull_mode (pin : Pin) (mode : gpio_pull_mode)
  | gpio_set_pin_direction (pin : Pin) (direction : gpio_direction)
  | sercom (step : sercom_setup)
  deriving DecidableEq

/-- The condition that defines `WITH_USB_SWITCH`, from the board revision. -/
def WITH_USB_SWITCH (major minor : Nat) : Bool :=
  ((major == 0) && (minor >= 6)) || (major == 1)

/-- Heartbeat timeout, `#define TIMEOUT 100UL` (milliseconds). -/
def TIMEOUT : Nat := 100

/-- Subtraction of two `uint32_t`: the difference modulo `2 ^ 32`. -/
def u32_sub (a b : Nat) : Nat :=
  (((a : Int) - (b : Int)) % 4294967296).toNat

/-- State of the switch control: the two file-scope variables, the output level of the
`USB_SWITCH` pin, and the trace of the calls made to external collaborators. -/
structure Switch where
  control_to_fpga : Bool
  last_phy_adv : Nat
  usb_switch_level : Bool
  effects : List Effect
  deriving DecidableEq

/-- Record one external call in the trace. -/
def Switch.emit (e : Effect) (s : Switch) : Switch :=
  { s with effects := s.effects ++ [e] }

/-- TinyUSB `tud_disconnect()`. -/
def tud_disconnect (s : Switch) : Switch := s.emit .tud_disconnect

/-- TinyUSB `tud_connect()`. -/
def tud_connect (s : Switch) : Switch := s.emit .tud_connect

/-- Board support `board_delay(ms)`. -/
def board_delay (ms : Nat) (s : Switch) : Switch := s.emit (.board_delay ms)

/-- LED driver `led_on(led)`. -/
def led_on (led : led_t) (s : Switch) : Switch := s.emit (.led_on led)

/-- LED driver `led_off(led)`. -/
def led_off (led : led_t) (s : Switch) : Switch := s.emit (.led_off led)

/-- GPIO driver `gpio_set_pin_level(pin, level)`; the level driven on `USB_SWITCH` is
kept in the state. -/
def gpio_set_pin_level (pin : Pin) (level : Bool) (s : Switch) : Switch :=
  let s := s.emit (.gpio_set_pin_level pin level)
  match pin with
  | .USB_SWITCH => { s with usb_switch_level := level }
  | _ => s

/-- Hand off shared USB port to FPGA.  `with_usb_switch` says whether the file is
compiled with `WITH_USB_SWITCH` defined. -/
def hand_off_usb (with_usb_switch : Bool) (s : Switch) : Switch :=
  if !with_usb_switch then
    led_on .LED_D s
  else
    if s.control_to_fpga == true then s
    else
      let s := tud_disconnect s
      let s := board_delay 100 s
      let s := gpio_set_pin_level .USB_SWITCH false s
      let s := led_off .LED_D s
      { s with control_to_fpga := true }

/-- Take control of USB port from FPGA. -/
def take_over_usb (with_usb_switch : Bool) (s : Switch) : Switch :=
  if !with_usb_switch then
    led_on .LED_D s
  else
    if s.control_to_fpga == false then s
    else
      let s := gpio_set_pin_level .USB_SWITCH true s
      let s := tud_disconnect s
      let s := board_delay 100 s
      let s := tud_connect s
      { s with control_to_fpga := false }

/-- Handle switch control user request.  `button` is the level read by
`gpio_get_pin_level(PROGRAM_BUTTON)` and `now` the value returned by `board_millis()`. -/
def switch_control_task (with_usb_switch : Bool) (button : Bool) (now : Nat)
    (s : Switch) : Switch :=
  let s := if button == false then take_over_usb with_usb_switch s else s
  if with_usb_switch then
    if u32_sub now s.last_phy_adv < TIMEOUT then s
    else take_over_usb with_usb_switch s
  else s

/-- Honor requests from FPGA_ADV again.  `now` is the value returned by
`board_millis()`. -/
def honor_fpga_adv (with_usb_switch : Bool) (now : Nat) (s : Switch) : Switch :=
  if with_usb_switch then
    if u32_sub now s.last_phy_adv < TIMEOUT then hand_off_usb with_usb_switch s
    else s
  else s

/-- Callback of the FPGA_ADV receiver for one received character (compiled only with
`WITH_USB_SWITCH`).  `parity_error` is a C `int`, nonzero meaning error; `now` is the
value returned by `board_millis()`. -/
def fpga_adv_byte_received_cb (byte : Nat) (parity_error : Int) (now : Nat)
    (s : Switch) : Switch :=
  if parity_error ≠ 0 then s
  else if byte = 'A'.toNat then { s with last_phy_adv := now }
  else s

/-- FPGA_ADV interrupt handler.  `rxc` is `INTFLAG.bit.RXC`, `data` the content of
`DATA.reg` and `perr` the bit `STATUS.bit.PERR`; the character goes through a `uint16_t`
local and is converted to the `uint8_t` parameter of the callback. -/
def SERCOM1_Handler (rxc : Bool) (data : Nat) (perr : Bool) (now : Nat)
    (s : Switch) : Switch :=
  if rxc then
    let byte := data % 65536
    fpga_adv_byte_received_cb (byte % 256) (if perr then 1 else 0) now s
  else s

/-- GPIO driver `gpio_set_pin_pull_mode(pin, mode)`. -/
def gpio_set_pin_pull_mode (pin : Pin) (mode : gpio_pull_mode) (s : Switch) : Switch :=
  s.emit (.gpio_set_pin_pull_mode pin mode)

/-- GPIO driver `gpio_set_pin_direction(pin, direction)`. -/
def gpio_set_pin_direction (pin : Pin) (direction : gpio_direction) (s : Switch) : Switch :=
  s.emit (.gpio_set_pin_direction pin direction)

/-- One read of the hardware register `SYNCBUSY` of the SERCOM USART: the three
synchronisation bits that `fpga_adv_init` polls. -/
structure syncbusy_t where
  SWRST : Bool
  ENABLE : Bool
  CTRLB : Bool
  deriving DecidableEq

/-- Busy wait `while (sercom->USART.SYNCBUSY.bit.X);`.  Every evaluation of the condition
reads the register once; `syncbusy k` is what the `k`-th read of the register returns and
`reads` counts the reads made so far.  The C loop has no iteration cap; `fuel` bounds the
evaluations of the model and `none` means that the bit was still set when it ran out. -/
def wait_while (syncbusy : Nat → syncbusy_t) (bit : syncbusy_t → Bool) :
    Nat → Nat → Option Nat
  | 0, _ => none
  | fuel + 1, reads =>
    if bit (syncbusy reads) then wait_while syncbusy bit fuel (reads + 1)
    else some (reads + 1)

/-- Busy wait `while (SYNCBUSY.bit.SWRST || SYNCBUSY.bit.ENABLE);`: the second bit is read
(by a second read of the register) only when the first one is clear. -/
def wait_while_swrst_or_enable (syncbusy : Nat → syncbusy_t) : Nat → Nat → Option Nat
  | 0, _ => none
  | fuel + 1, reads =>
    if (syncbusy reads).SWRST then wait_while_swrst_or_enable syncbusy fuel (reads + 1)
    else if (syncbusy (reads + 1)).ENABLE then
      wait_while_swrst_or_enable syncbusy fuel (reads + 2)
    else some (reads + 2)

/-- The baud divisor computed by `fpga_adv_init` for 9600 baud, in `uint64_t` arithmetic
and stored in a `uint32_t`.  `CONF_CPU_FREQUENCY` comes from the clock configuration
header and is an input here. -/
def baud_divisor (CONF_CPU_FREQUENCY : Nat) : Nat :=
  let baudrate : Nat := 9600
  (((CONF_CPU_FREQUENCY * 2 ^ 16) % 2 ^ 64 + 2 ^ 64 - (baudrate * 2 ^ 20) % 2 ^ 64) % 2 ^ 64
    / CONF_CPU_FREQUENCY) % 2 ^ 32

/-- Initialize FPGA_ADV receive-only serial port (compiled only with `WITH_USB_SWITCH`).
Each of the busy waits gets the budget `fuel`; `now` is the value returned by
`board_millis()`. -/
def fpga_adv_init (syncbusy : Nat → syncbusy_t) (fuel : Nat) (CONF_CPU_FREQUENCY : Nat)
    (now : Nat) (s : Switch) : Option Switch :=
  match wait_while syncbusy (fun r => r.ENABLE) fuel 0 with
  | none => none
  | some reads =>
  let s := s.emit (.sercom (.CTRLA_ENABLE 0))
  match wait_while syncbusy (fun r => r.SWRST) fuel reads with
  | none => none
  | some reads =>
  let s := s.emit (.sercom (.CTRLA_SWRST 1))
  match wait_while syncbusy (fun r => r.SWRST) fuel reads with
  | none => none
  | some reads =>
  match wait_while_swrst_or_enable syncbusy fuel reads with
  | none => none
  | some reads =>
  let s := s.emit (.sercom .gpio_set_pin_function_PA09_SERCOM1_PAD3)
  let s := s.emit (.sercom .pm_enable_bus_clock_SERCOM1)
  let s := s.emit (.sercom .gclk_enable_channel_SERCOM1_GCLK0)
  let s := s.emit (.sercom (.CTRLA_DORD_RXPO_SAMPR_FORM_RUNSTDBY_INT_CLK 3 0 1))
  let baud := baud_divisor CONF_CPU_FREQUENCY
  let s := s.emit (.sercom (.BAUD baud))
  let s := s.emit (.sercom (.CTRLB_CHSIZE_RXEN 0))
  match wait_while syncbusy (fun r => r.CTRLB) fuel reads with
  | none => none
  | some reads =>
  let s := s.emit (.sercom .INTENSET_RXC)
  let s := s.emit (.sercom .NVIC_EnableIRQ_SERCOM1)
  let s := s.emit (.sercom (.CTRLA_ENABLE 1))
  match wait_while syncbusy (fun r => r.ENABLE) fuel reads with
  | none => none
  | some _ =>
  some { s with last_phy_adv := now }

/-- Initialize USB switch control. -/
def usb_switch_init (with_usb_switch : Bool) (syncbusy : Nat → syncbusy_t) (fuel : Nat)
    (CONF_CPU_FREQUENCY : Nat) (now : Nat) (s : Switch) : Option Switch :=
  if !with_usb_switch then
    let s := gpio_set_pin_pull_mode .PROGRAM_BUTTON .GPIO_PULL_UP s
    let s := gpio_set_pin_direction .PROGRAM_BUTTON .GPIO_DIRECTION_IN s
    some s
  else
    let s := gpio_set_pin_pull_mode .PROGRAM_BUTTON .GPIO_PULL_OFF s
    let s := gpio_set_pin_direction .PROGRAM_BUTTON .GPIO_DIRECTION_IN s
    let s := gpio_set_pin_direction .FPGA_INT .GPIO_DIRECTION_IN s
    let s := gpio_set_pin_pull_mode .FPGA_INT .GPIO_PULL_UP s
    let s := gpio_set_pin_direction .USB_SWITCH .GPIO_DIRECTION_OUT s
    let s := gpio_set_pin_level .USB_SWITCH false s
    let s := { s with control_to_fpga := true }
    fpga_adv_init syncbusy fuel CONF_CPU_FREQUENCY now s

/-- One step of the firmware after initialisation: a call of one of the entry points of
the switch control, with the values it reads from the environment. -/
inductive Op where
  | hand_off_usb
  | take_over_usb
  | switch_control_task (button : Bool) (now : Nat)
  | honor_fpga_adv (now : Nat)
  | SERCOM1_Handler (rxc : Bool) (data : Nat) (perr : Bool) (now : Nat)

/-- The state after one step. -/
def Op.step (with_usb_switch : Bool) : Op → Switch → Switch
  | .hand_off_usb, s => luna_d11.hand_off_usb with_usb_switch s
  | .take_over_usb, s => luna_d11.take_over_usb with_usb_switch s
  | .switch_control_task button now, s =>
    luna_d11.switch_control_task with_usb_switch button now s
  | .honor_fpga_adv now, s => luna_d11.honor_fpga_adv with_usb_switch now s
  | .SERCOM1_Handler rxc data perr now, s => luna_d11.SERCOM1_Handler rxc data perr now s

/-- The state after a finite sequence of steps, first step first. -/
def run (with_usb_switch : Bool) (ops : List Op) (s : Switch) : Switch :=
  ops.foldl (fun s op => op.step with_usb_switch s) s

end luna_d11

/-! ## `firmware/src/boards/luna_d21/usb_switch.c` -/

namespace luna_d21

open luna_d11 (Switch)

/-- Initialize USB switch control (empty body).  The file has no variable of its own; the
state type of `luna_d11` is reused for the trace of external calls. -/
def usb_switch_init (s : Switch) : Switch := s

/-- Hand off shared USB port to FPGA. -/
def hand_off_usb (s : Switch) : Switch := luna_d11.led_on .LED_D s

/-- Take control of USB port from FPGA. -/
def take_over_usb (s : Switch) : Switch := luna_d11.led_on .LED_D s

/-- Honor requests from FPGA_ADV again (empty body). -/
def honor_fpga_adv (s : Switch) : Switch := s

/-- Handle switch control user request (empty body: the button is not read). -/
def switch_control_task (s : Switch) : Switch := s

end luna_d21

/-! ## `firmware/src/boards/luna_d11/fpga.c` -/

namespace luna_d11_fpga

open luna_d11 (gpio_direction)

/-- Calls made by `fpga.c`, all of them on the pin `FPGA_PROGRAM` or to the board delay. -/
inductive Call where
  | gpio_set_pin_level (level : Bool)
  | gpio_set_pin_direction (direction : gpio_direction)
  | board_delay (ms : Nat)
  deriving DecidableEq

/-- The `FPGA_PROGRAM` pin as a direction and a level, with the calls made so far. -/
structure Program where
  direction : gpio_direction
  level : Bool
  calls : List Call
  deriving DecidableEq

/-- GPIO driver `gpio_set_pin_level(FPGA_PROGRAM, level)`. -/
def gpio_set_pin_level (level : Bool) (p : Program) : Program :=
  { p with level := level, calls := p.calls ++ [.gpio_set_pin_level level] }

/-- GPIO driver `gpio_set_pin_direction(FPGA_PROGRAM, direction)`. -/
def gpio_set_pin_direction (direction : gpio_direction) (p : Program) : Program :=
  { p with direction := direction, calls := p.calls ++ [.gpio_set_pin_direction direction] }

/-- Board support `board_delay(ms)`. -/
def board_delay (ms : Nat) (p : Program) : Program :=
  { p with calls := p.calls ++ [.board_delay ms] }

/-- Sets up the I/O pins needed to configure the FPGA. -/
def fpga_io_init (p : Program) : Program :=
  let p := gpio_set_pin_level true p
  gpio_set_pin_direction .GPIO_DIRECTION_IN p

/-- Requests that the FPGA clear its configuration and try to reconfigure. -/
def trigger_fpga_reconfiguration (p : Program) : Program :=
  let p := gpio_set_pin_direction .GPIO_DIRECTION_OUT p
  let p := gpio_set_pin_level false p
  let p := board_delay 1 p
  let p := gpio_set_pin_level true p
  gpio_set_pin_direction .GPIO_DIRECTION_IN p

/-- Requests that we hold the FPGA in an unconfigured state. -/
def force_fpga_offline (p : Program) : Program :=
  let p := gpio_set_pin_direction .GPIO_DIRECTION_OUT p
  gpio_set_pin_level false p

/-- One of the three operations of `fpga.c`. -/
inductive Op where
  | fpga_io_init
  | trigger_fpga_reconfiguration
  | force_fpga_offline
  deriving DecidableEq

/-- The pin after one operation. -/
def Op.step : Op → Program → Program
  | .fpga_io_init, p => luna_d11_fpga.fpga_io_init p
  | .trigger_fpga_reconfiguration, p => luna_d11_fpga.trigger_fpga_reconfiguration p
  | .force_fpga_offline, p => luna_d11_fpga.force_fpga_offline p

end luna_d11_fpga

/-! ## Properties of the STATUS register decode -/

namespace fpga_status

/-- A masked word is zero exactly when no bit is set in both the word and the mask. -/
theorem and_eq_zero_iff_testBit (x m : Nat) :
    x &&& m = 0 ↔ ∀ i, (x.testBit i && m.testBit i) = false := by
  constructor
  · intro h i
    rw [← Nat.testBit_and, h, Nat.zero_testBit]
  · intro h
    apply Nat.eq_of_testBit_eq
    intro i
    rw [Nat.testBit_and, h i, Nat.zero_testBit]

/-- The error mask is made of bits 23, 24, 25, 26 and 28. -/
theorem ERROR_MASK_bits : ERROR_MASK = 2 ^ 23 ||| 2 ^ 24 ||| 2 ^ 25 ||| 2 ^ 26 ||| 2 ^ 28 := by
  decide

/-- No error field is set exactly when bits 23, 24, 25, 26 and 28 are all clear. -/
theorem and_ERROR_MASK_eq_zero (s : Nat) :
    s &&& ERROR_MASK = 0 ↔
      s.testBit 23 = false ∧ s.testBit 24 = false ∧ s.testBit 25 = false ∧
      s.testBit 26 = false ∧ s.testBit 28 = false := by
  rw [and_eq_zero_iff_testBit, ERROR_MASK_bits]
  simp only [Nat.testBit_or, Nat.testBit_two_pow]
  constructor
  · intro h
    have h23 := h 23
    have h24 := h 24
    have h25 := h 25
    have h26 := h 26
    have h28 := h 28
    simp at h23 h24 h25 h26 h28
    exact ⟨h23, h24, h25, h26, h28⟩
  · rintro ⟨h23, h24, h25, h26, h28⟩ i
    by_cases a : 23 = i
    · subst a; simp [h23]
    by_cases b : 24 = i
    · subst b; simp [h24]
    by_cases c : 25 = i
    · subst c; simp [h25]
    by_cases d : 26 = i
    · subst d; simp [h26]
    by_cases e : 28 = i
    · subst e; simp [h28]
    simp [a, b, c, d, e]

/-- The DONE test reads bit 8. -/
theorem and_FLAG_DONE_ne_zero (s : Nat) : s &&& FLAG_DONE ≠ 0 ↔ s.testBit 8 = true := by
  have h : FLAG_DONE = 2 ^ 8 := by decide
  rw [h, Nat.and_two_pow]
  cases s.testBit 8 <;> simp

/-- The 3-bit field at bits 23 to 25 is zero exactly when its three bits are clear. -/
theorem bse_error_code_eq_zero (s : Nat) :
    (s >>> 23) % 8 = 0 ↔
      s.testBit 23 = false ∧ s.testBit 24 = false ∧ s.testBit 25 = false := by
  simp only [Nat.testBit_to_div_mod, Nat.shiftRight_eq_div_pow, decide_eq_false_iff_not]
  omega

/-- The configuration result in terms of the individual STATUS bits. -/
theorem configuration_result_iff (s : Nat) :
    configuration_result s = true ↔
      s.testBit 8 = true ∧ s.testBit 26 = false ∧ s.testBit 28 = false ∧
      (s >>> 23) % 8 = 0 := by
  have hd := and_FLAG_DONE_ne_zero s
  have he := and_ERROR_MASK_eq_zero s
  have hb := bse_error_code_eq_zero s
  unfold configuration_result
  simp only [bne_iff_ne, ne_eq, Bool.and_eq_true, Bool.not_eq_true', bne_eq_false_iff_eq,
    ite_eq_left_iff, Bool.not_eq_true, decide_eq_true_eq]
  constructor
  · intro h
    by_cases hc : (s &&& FLAG_DONE != 0) = true ∧ (!(s &&& ERROR_MASK != 0)) = true
    · simp only [bne_iff_ne, ne_eq, Bool.not_eq_true', bne_eq_false_iff_eq] at hc
      obtain ⟨h1, h2⟩ := hc
      have e := he.mp h2
      exact ⟨hd.mp h1, e.2.2.2.1, e.2.2.2.2, hb.mpr ⟨e.1, e.2.1, e.2.2.1⟩⟩
    · simp only [bne_iff_ne, ne_eq, Bool.not_eq_true', bne_eq_false_iff_eq] at hc
      have := h hc
      contradiction
  · rintro ⟨h8, h26, h28, hbse⟩ hn
    have b := hb.mp hbse
    exact absurd ⟨hd.mpr h8, he.mpr ⟨b.1, b.2.1, b.2.2, h26, h28⟩⟩ hn

/-- C1: whenever the BUSY poll ends on the status word `s`, `fpga_configured_ok` returns,
and it returns true if and only if DONE (bit 8) is set, EXECUTION_FAIL (bit 26) is clear,
INVALID_COMMAND (bit 28) is clear and the 3-bit BSE_ERROR_CODE field (bits 23 to 25) is
zero; in particular it returns false as soon as one error bit is set, whatever DONE is. -/
theorem fpga_configured_ok_iff_done_and_no_error (tdo : Nat → Nat) (fuel : Nat) (t : Tap)
    (s : Nat) (h : (busy_poll tdo fuel (jtag_init t)).map Prod.fst = some s) :
    ∃ b, (fpga_configured_ok tdo fuel t).map Prod.fst = some b ∧
      (b = true ↔
        s.testBit 8 = true ∧ s.testBit 26 = false ∧ s.testBit 28 = false ∧
        (s >>> 23) % 8 = 0) ∧
      ((s.testBit 26 = true ∨ s.testBit 28 = true ∨ (s >>> 23) % 8 ≠ 0) → b = false) := by
  refine ⟨configuration_result s, ?_, configuration_result_iff s, ?_⟩
  · cases hp : busy_poll tdo fuel (jtag_init t) with
    | none => rw [hp] at h; simp at h
    | some r =>
      obtain ⟨status, t1⟩ := r
      rw [hp] at h
      simp only [Option.map_some', Option.some.injEq] at h
      subst h
      simp [fpga_configured_ok, hp]
  · intro herr
    cases hr : configuration_result s with
    | false => rfl
    | true =>
      have hc := (configuration_result_iff s).mp hr
      rcases herr with h26 | h28 | hbse
      · rw [hc.2.1] at h26; contradiction
      · rw [hc.2.2.1] at h28; contradiction
      · exact absurd hc.2.2.2 hbse

/-- Witness for C1: a TAP that answers DONE with no error on every shift. -/
theorem fpga_configured_ok_iff_done_and_no_error_witness :
    (busy_poll (fun _ => 0x100) 1 (jtag_init ⟨0, []⟩)).map Prod.fst = some 0x100 ∧
    ∃ b, (fpga_configured_ok (fun _ => 0x100) 1 ⟨0, []⟩).map Prod.fst = some b ∧
      (b = true ↔
        (0x100).testBit 8 = true ∧ (0x100).testBit 26 = false ∧
        (0x100).testBit 28 = false ∧ (0x100 >>> 23) % 8 = 0) ∧
      (((0x100).testBit 26 = true ∨ (0x100).testBit 28 = true ∨ (0x100 >>> 23) % 8 ≠ 0) →
        b = false) :=
  ⟨by decide,
    fpga_configured_ok_iff_done_and_no_error (fun _ => 0x100) 1 ⟨0, []⟩ 0x100 (by decide)⟩

/-- Counterexample for C2: on DONE together with EXECUTION_FAIL (status `0x04000100`) the
code reports a failed configuration, while the test against the mask `0x10000100`, which
only looks at DONE and INVALID_COMMAND, is satisfied. -/
theorem configuration_result_ne_spec_mask :
    (0x04000100 : Nat) < 2 ^ 32 ∧
    configuration_result 0x04000100 = false ∧
    (((0x04000100 : Nat) &&& 0x10000100) == 0x00000100) = true ∧
    configuration_result 0x04000100 ≠ (((0x04000100 : Nat) &&& 0x10000100) == 0x00000100) := by
  decide

/-- C2 (amended): for every status word the configuration result equals the test
`(s & 0x17800100) == 0x00000100`, whose mask covers DONE and the whole of `ERROR_MASK`
(BSE_ERROR_CODE, EXECUTION_FAIL and INVALID_COMMAND). -/
theorem configuration_result_eq_mask_test (s : Nat) :
    configuration_result s = ((s &&& 0x17800100) == 0x00000100) := by
  have hm : (0x17800100 : Nat) = ERROR_MASK ||| FLAG_DONE := by decide
  have hmask : s &&& 0x17800100 = 0x100 ↔
      s.testBit 8 = true ∧ s.testBit 26 = false ∧ s.testBit 28 = false ∧
      (s >>> 23) % 8 = 0 := by
    rw [bse_error_code_eq_zero, hm, Nat.and_or_distrib_left]
    have hd := and_FLAG_DONE_ne_zero s
    have he := and_ERROR_MASK_eq_zero s
    have hdv : s &&& FLAG_DONE = (s.testBit 8).toNat * 2 ^ 8 := by
      have h : FLAG_DONE = 2 ^ 8 := by decide
      rw [h, Nat.and_two_pow]
    constructor
    · intro h
      have hle : s &&& ERROR_MASK = 0 := by
        apply Nat.eq_of_testBit_eq
        intro i
        have hi := congrArg (fun x => x.testBit i) h
        simp only [Nat.testBit_or, Nat.testBit_and] at hi
        rw [Nat.zero_testBit, Nat.testBit_and]
        by_cases h8 : i = 8
        · subst h8
          have : ERROR_MASK.testBit 8 = false := by decide
          simp [this]
        · have h256 : (0x100 : Nat).testBit i = false := by
            have : (0x100 : Nat) = 2 ^ 8 := by decide
            rw [this, Nat.testBit_two_pow]
            simp; omega
          rw [h256] at hi
          simp only [Bool.or_eq_false_iff] at hi
          exact hi.1
      have e := he.mp hle
      rw [hle, Nat.zero_or] at h
      have h8 : s.testBit 8 = true := by
        apply hd.mp
        rw [h]; decide
      exact ⟨h8, e.2.2.2.1, e.2.2.2.2, e.1, e.2.1, e.2.2.1⟩
    · rintro ⟨h8, h26, h28, h23, h24, h25⟩
      rw [he.mpr ⟨h23, h24, h25, h26, h28⟩, hdv, h8]
      decide
  cases hr : configuration_result s with
  | true =>
    have := hmask.mpr ((configuration_result_iff s).mp hr)
    simp [this]
  | false =>
    have hne : ¬ (s &&& 0x17800100 = 0x100) := by
      intro heq
      have := (configuration_result_iff s).mpr (hmask.mp heq)
      rw [hr] at this; contradiction
    simp [hne]

end fpga_status

/-! ## Properties of the shared USB port arbiter (built with `WITH_USB_SWITCH`) -/

namespace luna_d11

/-- The calls of a take-over, in program order. -/
theorem take_over_usb_of_fpga (s : Switch) (h : s.control_to_fpga = true) :
    take_over_usb true s =
      { control_to_fpga := false
        last_phy_adv := s.last_phy_adv
        usb_switch_level := true
        effects := s.effects ++
          [.gpio_set_pin_level .USB_SWITCH true, .tud_disconnect, .board_delay 100,
            .tud_connect] } := by
  simp [take_over_usb, h, gpio_set_pin_level, tud_disconnect, board_delay, tud_connect,
    Switch.emit]

/-- A take-over requested by the current owner does nothing. -/
theorem take_over_usb_of_mcu (s : Switch) (h : s.control_to_fpga = false) :
    take_over_usb true s = s := by
  simp [take_over_usb, h]

/-- The calls of a hand-off, in program order. -/
theorem hand_off_usb_of_mcu (s : Switch) (h : s.control_to_fpga = false) :
    hand_off_usb true s =
      { control_to_fpga := true
        last_phy_adv := s.last_phy_adv
        usb_switch_level := false
        effects := s.effects ++
          [.tud_disconnect, .board_delay 100, .gpio_set_pin_level .USB_SWITCH false,
            .led_off .LED_D] } := by
  simp [hand_off_usb, h, gpio_set_pin_level, tud_disconnect, board_delay, led_off,
    Switch.emit]

/-- A hand-off requested while the FPGA already owns the port does nothing. -/
theorem hand_off_usb_of_fpga (s : Switch) (h : s.control_to_fpga = true) :
    hand_off_usb true s = s := by
  simp [hand_off_usb, h]

/-- After a take-over the microcontroller owns the port. -/
theorem take_over_usb_control (s : Switch) :
    (take_over_usb true s).control_to_fpga = false := by
  cases h : s.control_to_fpga with
  | true => rw [take_over_usb_of_fpga s h]
  | false => rw [take_over_usb_of_mcu s h]; exact h

/-- A take-over does not touch the advertisement timestamp. -/
theorem take_over_usb_last_phy_adv (s : Switch) :
    (take_over_usb true s).last_phy_adv = s.last_phy_adv := by
  cases h : s.control_to_fpga with
  | true => rw [take_over_usb_of_fpga s h]
  | false => rw [take_over_usb_of_mcu s h]

/-- After a hand-off the FPGA owns the port. -/
theorem hand_off_usb_control (s : Switch) :
    (hand_off_usb true s).control_to_fpga = true := by
  cases h : s.control_to_fpga with
  | true => rw [hand_off_usb_of_fpga s h]; exact h
  | false => rw [hand_off_usb_of_mcu s h]

/-- C3: button assertion always wins.  For every prior state (ownership, timestamp) and
every tick, when PROGRAM_BUTTON reads low the microcontroller owns the port after
`switch_control_task`, whether the heartbeat is fresh or stale. -/
theorem switch_control_task_button_wins (s : Switch) (now : Nat) :
    (switch_control_task true false now s).control_to_fpga = false := by
  have h1 := take_over_usb_control s
  have h2 := take_over_usb_control (take_over_usb true s)
  simp only [switch_control_task, beq_self_eq_true, if_true]
  split
  · exact h1
  · exact h2

/-- C4: timeout-triggered take-over, button not asserted.  With
`elapsed = (now - T) mod 2 ^ 32`: when `elapsed >= 100` the task is a take-over (the
microcontroller owns the port afterwards, and the take-over calls are made exactly when
the FPGA owned it); when `elapsed < 100` the state, trace included, is unchanged.  From
FPGA ownership the ticks `T + 101` and `T + 100` transition and `T + 99` does not. -/
theorem switch_control_task_timeout (s : Switch) (now : Nat) :
    (TIMEOUT ≤ u32_sub now s.last_phy_adv →
      (switch_control_task true true now s).control_to_fpga = false ∧
      (switch_control_task true true now s).effects = s.effects ++
        (if s.control_to_fpga then
          [.gpio_set_pin_level .USB_SWITCH true, .tud_disconnect, .board_delay 100,
            .tud_connect]
        else [])) ∧
    (u32_sub now s.last_phy_adv < TIMEOUT → switch_control_task true true now s = s) ∧
    (s.control_to_fpga = true →
      (switch_control_task true true ((s.last_phy_adv + 101) % 2 ^ 32) s).control_to_fpga
        = false ∧
      (switch_control_task true true ((s.last_phy_adv + 100) % 2 ^ 32) s).control_to_fpga
        = false ∧
      switch_control_task true true ((s.last_phy_adv + 99) % 2 ^ 32) s = s) := by
  have key : ∀ n, switch_control_task true true n s =
      if u32_sub n s.last_phy_adv < TIMEOUT then s else take_over_usb true s := by
    intro n
    simp [switch_control_task]
  refine ⟨?_, ?_, ?_⟩
  · intro h
    rw [key, if_neg (by omega)]
    refine ⟨take_over_usb_control s, ?_⟩
    cases hc : s.control_to_fpga with
    | true => rw [take_over_usb_of_fpga s hc]; simp
    | false => rw [take_over_usb_of_mcu s hc]; simp
  · intro h
    rw [key, if_pos h]
  · intro hc
    have e101 : u32_sub ((s.last_phy_adv + 101) % 2 ^ 32) s.last_phy_adv = 101 := by
      unfold u32_sub; omega
    have e100 : u32_sub ((s.last_phy_adv + 100) % 2 ^ 32) s.last_phy_adv = 100 := by
      unfold u32_sub; omega
    have e99 : u32_sub ((s.last_phy_adv + 99) % 2 ^ 32) s.last_phy_adv = 99 := by
      unfold u32_sub; omega
    refine ⟨?_, ?_, ?_⟩
    · rw [key, e101, if_neg (by decide)]; exact take_over_usb_control s
    · rw [key, e100, if_neg (by decide)]; exact take_over_usb_control s
    · rw [key, e99, if_pos (by decide)]

/-- Witness for C4: the FPGA owns the port, the last advertisement was at tick 1000 and
the task runs at tick 1101. -/
theorem switch_control_task_timeout_witness :
    TIMEOUT ≤ u32_sub 1101 1000 ∧
    (switch_control_task true true 1101 ⟨true, 1000, false, []⟩).control_to_fpga = false ∧
    (switch_control_task true true 1101 ⟨true, 1000, false, []⟩).effects =
      [] ++ (if true then
          [.gpio_set_pin_level .USB_SWITCH true, .tud_disconnect, .board_delay 100,
            .tud_connect]
        else []) :=
  ⟨by decide, (switch_control_task_timeout ⟨true, 1000, false, []⟩ 1101).1 (by decide)⟩

/-- C5: heartbeat-triggered release.  When the microcontroller owns the port and the
timestamp is fresh (`(now - T) mod 2 ^ 32 < 100`), `honor_fpga_adv` makes the hand-off
calls once (one `tud_disconnect`), the FPGA owns the port afterwards, and honoring again
at any tick changes nothing more; when the timestamp is stale the state, trace
included, is unchanged whatever the prior ownership. -/
theorem honor_fpga_adv_release (s : Switch) (now : Nat) :
    (s.control_to_fpga = false → u32_sub now s.last_phy_adv < TIMEOUT →
      (honor_fpga_adv true now s).control_to_fpga = true ∧
      (honor_fpga_adv true now s).effects = s.effects ++
        [.tud_disconnect, .board_delay 100, .gpio_set_pin_level .USB_SWITCH false,
          .led_off .LED_D] ∧
      (honor_fpga_adv true now s).effects.count .tud_disconnect =
        s.effects.count .tud_disconnect + 1 ∧
      ∀ later, honor_fpga_adv true later (honor_fpga_adv true now s) =
        honor_fpga_adv true now s) ∧
    (TIMEOUT ≤ u32_sub now s.last_phy_adv → honor_fpga_adv true now s = s) := by
  have key : ∀ n (x : Switch), honor_fpga_adv true n x =
      if u32_sub n x.last_phy_adv < TIMEOUT then hand_off_usb true x else x := by
    intro n x
    simp [honor_fpga_adv]
  refine ⟨?_, ?_⟩
  · intro hc hfresh
    have e : honor_fpga_adv true now s = hand_off_usb true s := by
      rw [key, if_pos hfresh]
    rw [e]
    refine ⟨hand_off_usb_control s, ?_, ?_, ?_⟩
    · rw [hand_off_usb_of_mcu s hc]
    · rw [hand_off_usb_of_mcu s hc]
      simp [List.count_append, List.count_cons]
    · intro later
      rw [key]
      split
      · exact hand_off_usb_of_fpga _ (hand_off_usb_control s)
      · rfl
  · intro hstale
    rw [key, if_neg (by omega)]

/-- Witness for C5: the microcontroller owns the port, the last advertisement was at tick
1000 and the heartbeat is honored at tick 1050. -/
theorem honor_fpga_adv_release_witness :
    (honor_fpga_adv true 1050 ⟨false, 1000, true, []⟩).control_to_fpga = true ∧
    (honor_fpga_adv true 1050 ⟨false, 1000, true, []⟩).effects = [] ++
      [.tud_disconnect, .board_delay 100, .gpio_set_pin_level .USB_SWITCH false,
        .led_off .LED_D] ∧
    (honor_fpga_adv true 1050 ⟨false, 1000, true, []⟩).effects.count .tud_disconnect =
      ([] : List Effect).count .tud_disconnect + 1 ∧
    ∀ later, honor_fpga_adv true later (honor_fpga_adv true 1050 ⟨false, 1000, true, []⟩) =
      honor_fpga_adv true 1050 ⟨false, 1000, true, []⟩ :=
  (honor_fpga_adv_release ⟨false, 1000, true, []⟩ 1050).1 rfl (by decide)

/-- C6: hand-off is idempotent.  For every state, two consecutive calls of `hand_off_usb`
end in the same state, with the same trace, as a single call; starting with the
microcontroller owning the port, the two calls together make exactly one forced
disconnect (one `tud_disconnect` followed by its 100 ms delay). -/
theorem hand_off_usb_idempotent (s : Switch) :
    hand_off_usb true (hand_off_usb true s) = hand_off_usb true s ∧
    (s.control_to_fpga = false →
      (hand_off_usb true (hand_off_usb true s)).effects = s.effects ++
        [.tud_disconnect, .board_delay 100, .gpio_set_pin_level .USB_SWITCH false,
          .led_off .LED_D] ∧
      (hand_off_usb true (hand_off_usb true s)).effects.count .tud_disconnect =
        s.effects.count .tud_disconnect + 1 ∧
      (hand_off_usb true (hand_off_usb true s)).effects.count (.board_delay 100) =
        s.effects.count (.board_delay 100) + 1) := by
  have idem : hand_off_usb true (hand_off_usb true s) = hand_off_usb true s :=
    hand_off_usb_of_fpga _ (hand_off_usb_control s)
  refine ⟨idem, ?_⟩
  intro hc
  rw [idem, hand_off_usb_of_mcu s hc]
  simp [List.count_append, List.count_cons]

/-- Witness for C6: two hand-offs in a row from microcontroller ownership. -/
theorem hand_off_usb_idempotent_witness :
    (hand_off_usb true (hand_off_usb true ⟨false, 0, true, []⟩)).effects = [] ++
      [.tud_disconnect, .board_delay 100, .gpio_set_pin_level .USB_SWITCH false,
        .led_off .LED_D] ∧
    (hand_off_usb true (hand_off_usb true ⟨false, 0, true, []⟩)).effects.count
      .tud_disconnect = ([] : List Effect).count .tud_disconnect + 1 ∧
    (hand_off_usb true (hand_off_usb true ⟨false, 0, true, []⟩)).effects.count
      (.board_delay 100) = ([] : List Effect).count (.board_delay 100) + 1 :=
  (hand_off_usb_idempotent ⟨false, 0, true, []⟩).2 rfl

/-- C7: redundant ownership requests are no-ops.  `hand_off_usb` while the FPGA owns the
port and `take_over_usb` while the microcontroller owns it return the state they were
given: same ownership, same mux level, same timestamp, and nothing added to the trace. -/
theorem redundant_request_noop (s : Switch) :
    (s.control_to_fpga = true →
      hand_off_usb true s = s ∧ (hand_off_usb true s).effects = s.effects ++ []) ∧
    (s.control_to_fpga = false →
      take_over_usb true s = s ∧ (take_over_usb true s).effects = s.effects ++ []) := by
  refine ⟨?_, ?_⟩
  · intro h
    rw [hand_off_usb_of_fpga s h]
    simp
  · intro h
    rw [take_over_usb_of_mcu s h]
    simp

/-- Witness for C7: a hand-off request while the FPGA owns the port. -/
theorem redundant_request_noop_witness :
    hand_off_usb true ⟨true, 7, false, [.tud_connect]⟩ = ⟨true, 7, false, [.tud_connect]⟩ ∧
    (hand_off_usb true ⟨true, 7, false, [.tud_connect]⟩).effects = [.tud_connect] ++ [] :=
  (redundant_request_noop ⟨true, 7, false, [.tud_connect]⟩).1 rfl

/-- C8: advertisement receiver.  The callback stores the current tick in the timestamp
exactly when no parity error is flagged and the byte is `0x41`, and changes nothing
else; a byte with a parity error never changes the state, even when it is `0x41`; the
interrupt handler does the same with the low 8 bits of the data register when a
character has been received. -/
theorem fpga_adv_byte_received_cb_timestamp (byte : Nat) (parity_error : Int) (now : Nat)
    (s : Switch) (rxc perr : Bool) (data : Nat) :
    fpga_adv_byte_received_cb byte parity_error now s =
      { s with last_phy_adv :=
          if parity_error = 0 ∧ byte = 0x41 then now else s.last_phy_adv } ∧
    (parity_error = 0 ∧ byte = 0x41 →
      (fpga_adv_byte_received_cb byte parity_error now s).last_phy_adv = now) ∧
    (¬ (parity_error = 0 ∧ byte = 0x41) →
      fpga_adv_byte_received_cb byte parity_error now s = s) ∧
    (parity_error ≠ 0 → fpga_adv_byte_received_cb 0x41 parity_error now s = s) ∧
    SERCOM1_Handler rxc data perr now s =
      { s with last_phy_adv :=
          if rxc = true ∧ perr = false ∧ data % 256 = 0x41 then now
          else s.last_phy_adv } := by
  have hA : 'A'.toNat = 0x41 := by decide
  have main : fpga_adv_byte_received_cb byte parity_error now s =
      { s with last_phy_adv :=
          if parity_error = 0 ∧ byte = 0x41 then now else s.last_phy_adv } := by
    unfold fpga_adv_byte_received_cb
    rw [hA]
    by_cases hp : parity_error = 0
    · by_cases hb : byte = 0x41
      · simp [hp, hb]
      · simp [hp, hb]
    · simp [hp]
  refine ⟨main, ?_, ?_, ?_, ?_⟩
  · intro h
    rw [main, if_pos h]
  · intro h
    rw [main, if_neg h]
  · intro h
    simp [fpga_adv_byte_received_cb, h]
  · unfold SERCOM1_Handler fpga_adv_byte_received_cb
    rw [hA]
    have hmod : data % 65536 % 256 = data % 256 := by omega
    cases rxc <;> cases perr <;> by_cases hb : data % 256 = 0x41 <;> simp [hmod, hb]

/-- Witness for C8: a parity-errored `0x41` leaves the timestamp alone, a valid one
updates it. -/
theorem fpga_adv_byte_received_cb_timestamp_witness :
    fpga_adv_byte_received_cb 0x41 1 2000 ⟨true, 1000, false, []⟩ =
      ⟨true, 1000, false, []⟩ ∧
    (fpga_adv_byte_received_cb 0x41 0 2000 ⟨true, 1000, false, []⟩).last_phy_adv = 2000 :=
  ⟨(fpga_adv_byte_received_cb_timestamp 0x41 1 2000 ⟨true, 1000, false, []⟩
      false false 0).2.2.2.1 (by decide),
    (fpga_adv_byte_received_cb_timestamp 0x41 0 2000 ⟨true, 1000, false, []⟩
      false false 0).2.1 ⟨rfl, rfl⟩⟩

/-- Counterexample for C9: taking over from the FPGA makes no `led_on` call at all, so
the indicator is not set. -/
theorem take_over_usb_no_led_on :
    ¬ ∃ led, Effect.led_on led ∈ (take_over_usb true ⟨true, 0, false, []⟩).effects := by
  rintro ⟨led, h⟩
  simp [take_over_usb, gpio_set_pin_level, tud_disconnect, board_delay, tud_connect,
    Switch.emit] at h

/-- C9 (amended): when the FPGA owns the port, `take_over_usb` makes exactly these calls,
in this order: `USB_SWITCH` driven high (mux to the microcontroller side),
`tud_disconnect`, a 100 ms delay, `tud_connect`; it ends with the microcontroller owning
the port and the timestamp untouched.  No LED call is part of the sequence. -/
theorem take_over_usb_sequence (s : Switch) (h : s.control_to_fpga = true) :
    (take_over_usb true s).effects = s.effects ++
      [.gpio_set_pin_level .USB_SWITCH true, .tud_disconnect, .board_delay 100,
        .tud_connect] ∧
    (take_over_usb true s).control_to_fpga = false ∧
    (take_over_usb true s).usb_switch_level = true ∧
    (take_over_usb true s).last_phy_adv = s.last_phy_adv := by
  rw [take_over_usb_of_fpga s h]
  simp

/-- Witness for C9 (amended): a take-over from FPGA ownership with an empty trace. -/
theorem take_over_usb_sequence_witness :
    (take_over_usb true ⟨true, 0, false, []⟩).effects = [] ++
      [.gpio_set_pin_level .USB_SWITCH true, .tud_disconnect, .board_delay 100,
        .tud_connect] ∧
    (take_over_usb true ⟨true, 0, false, []⟩).control_to_fpga = false ∧
    (take_over_usb true ⟨true, 0, false, []⟩).usb_switch_level = true ∧
    (take_over_usb true ⟨true, 0, false, []⟩).last_phy_adv = 0 :=
  take_over_usb_sequence ⟨true, 0, false, []⟩ rfl

/-- C10: when the microcontroller owns the port, `hand_off_usb` makes exactly these calls,
in this order: `tud_disconnect`, a 100 ms delay, `USB_SWITCH` driven low (mux to the FPGA
side), `led_off(LED_D)`; it ends with the FPGA owning the port, and it adds no
`tud_connect` to the trace. -/
theorem hand_off_usb_sequence (s : Switch) (h : s.control_to_fpga = false) :
    (hand_off_usb true s).effects = s.effects ++
      [.tud_disconnect, .board_delay 100, .gpio_set_pin_level .USB_SWITCH false,
        .led_off .LED_D] ∧
    (hand_off_usb true s).control_to_fpga = true ∧
    (hand_off_usb true s).usb_switch_level = false ∧
    (hand_off_usb true s).effects.count .tud_connect = s.effects.count .tud_connect := by
  rw [hand_off_usb_of_mcu s h]
  simp [List.count_append, List.count_cons]

/-- Witness for C10: a hand-off from microcontroller ownership with an empty trace. -/
theorem hand_off_usb_sequence_witness :
    (hand_off_usb true ⟨false, 0, true, []⟩).effects = [] ++
      [.tud_disconnect, .board_delay 100, .gpio_set_pin_level .USB_SWITCH false,
        .led_off .LED_D] ∧
    (hand_off_usb true ⟨false, 0, true, []⟩).control_to_fpga = true ∧
    (hand_off_usb true ⟨false, 0, true, []⟩).usb_switch_level = false ∧
    (hand_off_usb true ⟨false, 0, true, []⟩).effects.count .tud_connect =
      ([] : List Effect).count .tud_connect :=
  hand_off_usb_sequence ⟨false, 0, true, []⟩ rfl

end luna_d11

/-! ## Properties of the status read and of the BUSY poll -/

namespace fpga_status

/-- A 32-bit capture overwrites the whole of `status`. -/
theorem store_captured_32 (status captured : Nat) :
    store_captured status captured 32 = captured % 2 ^ 32 := by
  unfold store_captured
  norm_num
  omega

/-- The calls of one status read, spelled out. -/
theorem read_calls_eq :
    read_calls =
      [.jtag_go_to_state .STATE_SHIFT_IR, .jtag_tap_shift [0x3C, 0, 0, 0] 8 1,
        .jtag_go_to_state .STATE_PAUSE_IR, .jtag_go_to_state .STATE_SHIFT_DR,
        .jtag_tap_shift [0, 0, 0, 0] 32 1, .jtag_go_to_state .STATE_PAUSE_DR] := by
  decide

/-- One status read: what it returns and what it leaves behind. -/
theorem read_fpga_status_eq (tdo : Nat → Nat) (t : Tap) :
    read_fpga_status tdo t =
      (tdo (t.shifts + 1) % 2 ^ 32, ⟨t.shifts + 2, t.calls ++ read_calls⟩) := by
  rw [read_calls_eq]
  simp [read_fpga_status, jtag_tap_shift, jtag_go_to_state, Tap.call, store_captured_32,
    LSC_READ_STATUS]

/-- The `i`-th status word of a session is what the shift number `2 * i + 1` captures. -/
theorem status_word_eq (tdo : Nat → Nat) (t : Tap) (i : Nat) :
    status_word tdo t i = tdo (t.shifts + 2 * i + 1) % 2 ^ 32 := by
  simp [status_word, read_fpga_status_eq]

/-- One more busy read in front of a poll. -/
theorem poll_calls_succ (k : Nat) :
    poll_calls (k + 1) = read_calls ++ [Call.delay 100000] ++ poll_calls k := by
  simp [poll_calls, List.replicate_succ]

/-- The poll ends on the first status word that has BUSY clear, given fuel for it. -/
theorem busy_poll_first_idle (tdo : Nat → Nat) (k : Nat) :
    ∀ (fuel : Nat) (t : Tap), k < fuel →
      (∀ i, i < k → status_word tdo t i &&& FLAG_BUSY ≠ 0) →
      status_word tdo t k &&& FLAG_BUSY = 0 →
      busy_poll tdo fuel t =
        some (status_word tdo t k, ⟨t.shifts + 2 * (k + 1), t.calls ++ poll_calls k⟩) := by
  induction k with
  | zero =>
    intro fuel t hf _ hidle
    obtain ⟨f, rfl⟩ : ∃ f, fuel = f + 1 := ⟨fuel - 1, by omega⟩
    rw [status_word_eq] at hidle
    simp only [busy_poll, read_fpga_status_eq, status_word_eq]
    simp at hidle
    simp [hidle, poll_calls]
  | succ k ih =>
    intro fuel t hf hbusy hidle
    obtain ⟨f, rfl⟩ : ∃ f, fuel = f + 1 := ⟨fuel - 1, by omega⟩
    have h0 : tdo (t.shifts + 1) % 2 ^ 32 &&& FLAG_BUSY ≠ 0 := by
      simpa only [status_word_eq, Nat.mul_zero, Nat.add_zero] using hbusy 0 (by omega)
    have hshift : ∀ i, status_word tdo (delay 100000 ⟨t.shifts + 2, t.calls ++ read_calls⟩) i
        = status_word tdo t (i + 1) := by
      intro i
      simp only [status_word_eq, delay, Tap.call]
      congr 2
      omega
    have hrec := ih f (delay 100000 ⟨t.shifts + 2, t.calls ++ read_calls⟩) (by omega)
      (fun i hi => by rw [hshift]; exact hbusy (i + 1) (by omega))
      (by rw [hshift]; exact hidle)
    simp only [busy_poll, read_fpga_status_eq]
    rw [if_pos (by simpa only [bne_iff_ne] using h0), hrec, hshift, poll_calls_succ]
    simp only [delay, Tap.call, List.append_assoc]
    congr 3
    omega

/-- The poll does not end while every status word read so far has BUSY set. -/
theorem busy_poll_all_busy (tdo : Nat → Nat) (fuel : Nat) :
    ∀ (t : Tap), (∀ i, i < fuel → status_word tdo t i &&& FLAG_BUSY ≠ 0) →
      busy_poll tdo fuel t = none := by
  induction fuel with
  | zero => intro t _; rfl
  | succ f ih =>
    intro t hbusy
    have h0 : tdo (t.shifts + 1) % 2 ^ 32 &&& FLAG_BUSY ≠ 0 := by
      simpa only [status_word_eq, Nat.mul_zero, Nat.add_zero] using hbusy 0 (by omega)
    have hshift : ∀ i, status_word tdo (delay 100000 ⟨t.shifts + 2, t.calls ++ read_calls⟩) i
        = status_word tdo t (i + 1) := by
      intro i
      simp only [status_word_eq, delay, Tap.call]
      congr 2
      omega
    simp only [busy_poll, read_fpga_status_eq]
    rw [if_pos (by simpa only [bne_iff_ne] using h0)]
    exact ih _ (fun i hi => by rw [hshift]; exact hbusy (i + 1) (by omega))

/-- How many delays and data shifts a poll of `k` busy reads and one last read makes;
it contains no `jtag_init` and no `jtag_deinit`. -/
theorem poll_calls_count (k : Nat) :
    (poll_calls k).count (.delay 100000) = k ∧
    (poll_calls k).count (.jtag_tap_shift [0, 0, 0, 0] 32 1) = k + 1 ∧
    (poll_calls k).count .jtag_init = 0 ∧
    (poll_calls k).count .jtag_deinit = 0 := by
  induction k with
  | zero => decide
  | succ k ih =>
    obtain ⟨h1, h2, h3, h4⟩ := ih
    rw [poll_calls_succ]
    simp only [List.count_append, h1, h2, h3, h4]
    have c1 : read_calls.count (.delay 100000) = 0 := by decide
    have c2 : read_calls.count (.jtag_tap_shift [0, 0, 0, 0] 32 1) = 1 := by decide
    have c3 : read_calls.count .jtag_init = 0 := by decide
    have c4 : read_calls.count .jtag_deinit = 0 := by decide
    have d1 : [Call.delay 100000].count (.delay 100000) = 1 := by decide
    have d2 : [Call.delay 100000].count (.jtag_tap_shift [0, 0, 0, 0] 32 1) = 0 := by decide
    have d3 : [Call.delay 100000].count .jtag_init = 0 := by decide
    have d4 : [Call.delay 100000].count .jtag_deinit = 0 := by decide
    rw [c1, c2, c3, c4, d1, d2, d3, d4]
    omega

/-- C14: status read framing.  `read_fpga_status` adds exactly these calls to the trace:
go to SHIFT_IR; shift 8 bits out of a buffer whose first byte is the opcode `0x3C`; go to
PAUSE_IR; go to SHIFT_DR; shift 32 bits out of an all-zero buffer; go to PAUSE_DR.  It
returns the 32-bit word captured by the data shift (bit `i` of the result is the `i`-th
captured bit), whatever the instruction shift captured. -/
theorem read_fpga_status_framing (tdo : Nat → Nat) (t : Tap) :
    (read_fpga_status tdo t).2.calls = t.calls ++
      [.jtag_go_to_state .STATE_SHIFT_IR, .jtag_tap_shift [0x3C, 0, 0, 0] 8 1,
        .jtag_go_to_state .STATE_PAUSE_IR, .jtag_go_to_state .STATE_SHIFT_DR,
        .jtag_tap_shift [0, 0, 0, 0] 32 1, .jtag_go_to_state .STATE_PAUSE_DR] ∧
    (read_fpga_status tdo t).2.shifts = t.shifts + 2 ∧
    (read_fpga_status tdo t).1 = tdo (t.shifts + 1) % 2 ^ 32 ∧
    (∀ i, (read_fpga_status tdo t).1.testBit i =
      (decide (i < 32) && (tdo (t.shifts + 1)).testBit i)) ∧
    (∀ tdo2 : Nat → Nat, tdo2 (t.shifts + 1) = tdo (t.shifts + 1) →
      (read_fpga_status tdo2 t).1 = (read_fpga_status tdo t).1) := by
  refine ⟨?_, ?_, ?_, ?_, ?_⟩
  · rw [read_fpga_status_eq, read_calls_eq]
  · rw [read_fpga_status_eq]
  · rw [read_fpga_status_eq]
  · intro i
    rw [read_fpga_status_eq]
    exact Nat.testBit_mod_two_pow _ _ _
  · intro tdo2 h
    rw [read_fpga_status_eq, read_fpga_status_eq, h]

/-- Witness for C14: the instruction shift captures all ones, the data shift captures
`0x100`; the read returns `0x100`. -/
theorem read_fpga_status_framing_witness :
    (read_fpga_status (fun k => if k = 0 then 0xFFFFFFFF else 0x100) ⟨0, []⟩).1 =
      (read_fpga_status (fun _ => 0x100) ⟨0, []⟩).1 :=
  (read_fpga_status_framing (fun _ => 0x100) ⟨0, []⟩).2.2.2.2
    (fun k => if k = 0 then 0xFFFFFFFF else 0x100) (by decide)

/-- C15: BUSY polling.  If the status words of the successive reads have BUSY set for the
first `k` reads and clear on the next one, then with fuel for `k + 1` reads
`fpga_configured_ok` returns the result decided on that word alone, after `jtag_init`,
`k` reads each followed by a delay, the last read, and `jtag_deinit`; with less fuel the
model does not return.  If every status word has BUSY set, it returns for no amount of
fuel. -/
theorem fpga_configured_ok_busy_poll (tdo : Nat → Nat) (t : Tap) :
    (∀ k, (∀ i, i < k → status_word tdo t i &&& FLAG_BUSY ≠ 0) →
      status_word tdo t k &&& FLAG_BUSY = 0 →
      ∀ fuel,
        (k < fuel → fpga_configured_ok tdo fuel t =
          some (configuration_result (status_word tdo t k),
            ⟨t.shifts + 2 * (k + 1),
              t.calls ++ [.jtag_init] ++ poll_calls k ++ [.jtag_deinit]⟩)) ∧
        (fuel ≤ k → fpga_configured_ok tdo fuel t = none)) ∧
    (∀ k, (poll_calls k).count (.delay 100000) = k ∧
      (poll_calls k).count (.jtag_tap_shift [0, 0, 0, 0] 32 1) = k + 1 ∧
      (poll_calls k).count .jtag_init = 0 ∧
      (poll_calls k).count .jtag_deinit = 0) ∧
    ((∀ i, status_word tdo t i &&& FLAG_BUSY ≠ 0) →
      ∀ fuel, fpga_configured_ok tdo fuel t = none) := by
  have hsw : ∀ i, status_word tdo (jtag_init t) i = status_word tdo t i := by
    intro i
    simp [status_word_eq, jtag_init, Tap.call]
  refine ⟨?_, poll_calls_count, ?_⟩
  · intro k hbusy hidle fuel
    constructor
    · intro hf
      have hp := busy_poll_first_idle tdo k fuel (jtag_init t) hf
        (fun i hi => by rw [hsw]; exact hbusy i hi) (by rw [hsw]; exact hidle)
      simp only [fpga_configured_ok, hp, hsw]
      simp [jtag_init, jtag_deinit, Tap.call]
    · intro hf
      have hp := busy_poll_all_busy tdo fuel (jtag_init t)
        (fun i hi => by rw [hsw]; exact hbusy i (by omega))
      simp [fpga_configured_ok, hp]
  · intro hbusy fuel
    have hp := busy_poll_all_busy tdo fuel (jtag_init t)
      (fun i _ => by rw [hsw]; exact hbusy i)
    simp [fpga_configured_ok, hp]

/-- Witness for C15: BUSY on the first two reads, DONE without error on the third. -/
theorem fpga_configured_ok_busy_poll_witness :
    fpga_configured_ok (fun k => if k < 4 then 0x1000 else 0x100) 3 ⟨0, []⟩ =
      some (configuration_result
          (status_word (fun k => if k < 4 then 0x1000 else 0x100) ⟨0, []⟩ 2),
        ⟨0 + 2 * (2 + 1), [] ++ [.jtag_init] ++ poll_calls 2 ++ [.jtag_deinit]⟩) :=
  ((fpga_configured_ok_busy_poll (fun k => if k < 4 then 0x1000 else 0x100) ⟨0, []⟩).1 2
    (by decide) (by decide) 3).1 (by decide)

end fpga_status

/-! ## Properties of the initialisation and of the arbiter as a whole -/

namespace luna_d11

/-- A busy wait returns once the hardware has stopped reporting the bit, given fuel. -/
theorem wait_while_returns (syncbusy : Nat → syncbusy_t) (bit : syncbusy_t → Bool) (N : Nat)
    (hidle : ∀ k, N ≤ k → bit (syncbusy k) = false) :
    ∀ (fuel reads : Nat), N < fuel + reads → 0 < fuel →
      ∃ r, wait_while syncbusy bit fuel reads = some r := by
  intro fuel
  induction fuel with
  | zero => intro reads _ h; omega
  | succ f ih =>
    intro reads hN _
    unfold wait_while
    by_cases hb : bit (syncbusy reads) = true
    · rw [if_pos hb]
      have hlt : reads < N := by
        by_contra hge
        rw [hidle reads (by omega)] at hb
        contradiction
      exact ih (reads + 1) (by omega) (by omega)
    · rw [if_neg hb]
      exact ⟨_, rfl⟩

/-- The wait on two bits returns once the hardware has stopped reporting both. -/
theorem wait_while_swrst_or_enable_returns (syncbusy : Nat → syncbusy_t) (N : Nat)
    (hidle : ∀ k, N ≤ k → syncbusy k = ⟨false, false, false⟩) :
    ∀ (fuel reads : Nat), N < fuel + reads → 0 < fuel →
      ∃ r, wait_while_swrst_or_enable syncbusy fuel reads = some r := by
  intro fuel
  induction fuel with
  | zero => intro reads _ h; omega
  | succ f ih =>
    intro reads hN _
    unfold wait_while_swrst_or_enable
    by_cases hb : (syncbusy reads).SWRST = true
    · rw [if_pos hb]
      have hlt : reads < N := by
        by_contra hge
        rw [hidle reads (by omega)] at hb
        contradiction
      exact ih (reads + 1) (by omega) (by omega)
    · rw [if_neg hb]
      by_cases he : (syncbusy (reads + 1)).ENABLE = true
      · rw [if_pos he]
        have hlt : reads + 1 < N := by
          by_contra hge
          rw [hidle (reads + 1) (by omega)] at he
          contradiction
        exact ih (reads + 2) (by omega) (by omega)
      · rw [if_neg he]
        exact ⟨_, rfl⟩

/-- When the set-up of the serial port returns, it has added its ten set-up steps to the
trace and stored the current tick; nothing else has changed. -/
theorem fpga_adv_init_some (syncbusy : Nat → syncbusy_t) (fuel cpu now : Nat)
    (s r : Switch) (h : fpga_adv_init syncbusy fuel cpu now s = some r) :
    r = { control_to_fpga := s.control_to_fpga
          last_phy_adv := now
          usb_switch_level := s.usb_switch_level
          effects := s.effects ++
            [.sercom (.CTRLA_ENABLE 0), .sercom (.CTRLA_SWRST 1),
              .sercom .gpio_set_pin_function_PA09_SERCOM1_PAD3,
              .sercom .pm_enable_bus_clock_SERCOM1,
              .sercom .gclk_enable_channel_SERCOM1_GCLK0,
              .sercom (.CTRLA_DORD_RXPO_SAMPR_FORM_RUNSTDBY_INT_CLK 3 0 1),
              .sercom (.BAUD (baud_divisor cpu)), .sercom (.CTRLB_CHSIZE_RXEN 0),
              .sercom .INTENSET_RXC, .sercom .NVIC_EnableIRQ_SERCOM1,
              .sercom (.CTRLA_ENABLE 1)] } := by
  unfold fpga_adv_init at h
  split at h
  · contradiction
  split at h
  · contradiction
  split at h
  · contradiction
  split at h
  · contradiction
  split at h
  · contradiction
  split at h
  · contradiction
  simp only [Option.some.injEq] at h
  rw [← h]
  simp [Switch.emit]

/-- The set-up of the serial port returns once the hardware has stopped reporting busy,
given fuel. -/
theorem fpga_adv_init_returns (syncbusy : Nat → syncbusy_t) (fuel cpu now N : Nat)
    (s : Switch) (hidle : ∀ k, N ≤ k → syncbusy k = ⟨false, false, false⟩)
    (hf : N < fuel) : ∃ r, fpga_adv_init syncbusy fuel cpu now s = some r := by
  have hE : ∀ k, N ≤ k → (fun r : syncbusy_t => r.ENABLE) (syncbusy k) = false := by
    intro k hk; simp [hidle k hk]
  have hS : ∀ k, N ≤ k → (fun r : syncbusy_t => r.SWRST) (syncbusy k) = false := by
    intro k hk; simp [hidle k hk]
  have hC : ∀ k, N ≤ k → (fun r : syncbusy_t => r.CTRLB) (syncbusy k) = false := by
    intro k hk; simp [hidle k hk]
  obtain ⟨r1, h1⟩ := wait_while_returns syncbusy _ N hE fuel 0 (by omega) (by omega)
  obtain ⟨r2, h2⟩ := wait_while_returns syncbusy _ N hS fuel r1 (by omega) (by omega)
  obtain ⟨r3, h3⟩ := wait_while_returns syncbusy _ N hS fuel r2 (by omega) (by omega)
  obtain ⟨r4, h4⟩ :=
    wait_while_swrst_or_enable_returns syncbusy N hidle fuel r3 (by omega) (by omega)
  obtain ⟨r5, h5⟩ := wait_while_returns syncbusy _ N hC fuel r4 (by omega) (by omega)
  obtain ⟨r6, h6⟩ := wait_while_returns syncbusy _ N hE fuel r5 (by omega) (by omega)
  unfold fpga_adv_init
  simp only [h1, h2, h3, h4, h5, h6]
  exact ⟨_, rfl⟩

/-- C11: initial state.  For every state before the call, when `usb_switch_init` returns
the FPGA owns the port (`control_to_fpga` is true), `USB_SWITCH` is low, the timestamp is
the tick read at initialisation and no `tud_connect` has been added to the trace; and it
does return, given fuel, once the serial port hardware stops reporting a pending
synchronisation. -/
theorem usb_switch_init_state (syncbusy : Nat → syncbusy_t) (fuel cpu now : Nat)
    (s : Switch) :
    (∀ r, usb_switch_init true syncbusy fuel cpu now s = some r →
      r.control_to_fpga = true ∧ r.usb_switch_level = false ∧ r.last_phy_adv = now ∧
      r.effects.count .tud_connect = s.effects.count .tud_connect ∧
      r.effects.count (.gpio_set_pin_level .USB_SWITCH true) =
        s.effects.count (.gpio_set_pin_level .USB_SWITCH true)) ∧
    (∀ N, (∀ k, N ≤ k → syncbusy k = ⟨false, false, false⟩) → N < fuel →
      ∃ r, usb_switch_init true syncbusy fuel cpu now s = some r) := by
  refine ⟨?_, ?_⟩
  · intro r h
    simp only [usb_switch_init, Bool.not_true, Bool.false_eq_true, if_false] at h
    have e := fpga_adv_init_some _ _ _ _ _ _ h
    rw [e]
    simp [gpio_set_pin_level, gpio_set_pin_direction, gpio_set_pin_pull_mode, Switch.emit,
      List.count_append, List.count_cons]
  · intro N hidle hf
    simp only [usb_switch_init, Bool.not_true, Bool.false_eq_true, if_false]
    exact fpga_adv_init_returns _ _ _ _ N _ hidle hf

/-- Witness for C11: the hardware reports a pending synchronisation on its first three
reads; initialisation at tick 777 from the power-on values of the variables. -/
theorem usb_switch_init_state_witness :
    ∃ r, usb_switch_init true (fun k => ⟨decide (k < 3), decide (k < 2), false⟩) 4 48000000
      777 ⟨false, 0, false, []⟩ = some r :=
  (usb_switch_init_state (fun k => ⟨decide (k < 3), decide (k < 2), false⟩) 4 48000000 777
    ⟨false, 0, false, []⟩).2 3
    (fun k hk => by
      have h1 : ¬ k < 3 := by omega
      have h2 : ¬ k < 2 := by omega
      simp [h1, h2])
    (by decide)

/-- C12: wraparound-safe staleness.  When the 32-bit counter reads `(T + d) mod 2 ^ 32`
with `d < 2 ^ 32`, the unsigned difference to `T` is `d`, so the test
`board_millis() - last_phy_adv < TIMEOUT` is `d < 100` in `switch_control_task` and in
`honor_fpga_adv`, also when the counter has wrapped past zero. -/
theorem staleness_wraparound_safe (s : Switch) (d : Nat) (hd : d < 2 ^ 32) :
    u32_sub ((s.last_phy_adv + d) % 2 ^ 32) s.last_phy_adv = d ∧
    (u32_sub ((s.last_phy_adv + d) % 2 ^ 32) s.last_phy_adv < TIMEOUT ↔ d < 100) ∧
    switch_control_task true true ((s.last_phy_adv + d) % 2 ^ 32) s =
      (if d < 100 then s else take_over_usb true s) ∧
    honor_fpga_adv true ((s.last_phy_adv + d) % 2 ^ 32) s =
      (if d < 100 then hand_off_usb true s else s) := by
  have e : u32_sub ((s.last_phy_adv + d) % 2 ^ 32) s.last_phy_adv = d := by
    unfold u32_sub
    omega
  refine ⟨e, ?_, ?_, ?_⟩
  · rw [e]; rfl
  · simp only [switch_control_task, Bool.true_eq_false, beq_iff_eq, if_false, if_true, e,
      TIMEOUT]
  · simp only [honor_fpga_adv, if_true, e, TIMEOUT]

/-- Witness for C12: the timestamp is 6 ticks before the counter wraps, 50 ms elapse and
the counter reads 44, numerically below the timestamp; the heartbeat is still fresh. -/
theorem staleness_wraparound_safe_witness :
    (4294967290 + 50) % 2 ^ 32 < 4294967290 ∧
    u32_sub ((4294967290 + 50) % 2 ^ 32) 4294967290 = 50 ∧
    (u32_sub ((4294967290 + 50) % 2 ^ 32) 4294967290 < TIMEOUT ↔ 50 < 100) :=
  ⟨by decide,
    (staleness_wraparound_safe ⟨true, 4294967290, false, []⟩ 50 (by decide)).1,
    (staleness_wraparound_safe ⟨true, 4294967290, false, []⟩ 50 (by decide)).2.1⟩

/-- A hand-off does not touch the advertisement timestamp. -/
theorem hand_off_usb_last_phy_adv (s : Switch) :
    (hand_off_usb true s).last_phy_adv = s.last_phy_adv := by
  cases h : s.control_to_fpga with
  | true => rw [hand_off_usb_of_fpga s h]
  | false => rw [hand_off_usb_of_mcu s h]

/-- The periodic task does not touch the advertisement timestamp. -/
theorem switch_control_task_last_phy_adv (button : Bool) (now : Nat) (s : Switch) :
    (switch_control_task true button now s).last_phy_adv = s.last_phy_adv := by
  simp only [switch_control_task, if_true]
  cases button
  · simp only [beq_self_eq_true, if_true]
    split
    · exact take_over_usb_last_phy_adv s
    · rw [take_over_usb_last_phy_adv, take_over_usb_last_phy_adv]
  · simp only [Bool.true_eq_false, beq_iff_eq, if_false]
    split
    · rfl
    · exact take_over_usb_last_phy_adv s

/-- Honoring the heartbeat does not touch the advertisement timestamp. -/
theorem honor_fpga_adv_last_phy_adv (now : Nat) (s : Switch) :
    (honor_fpga_adv true now s).last_phy_adv = s.last_phy_adv := by
  simp only [honor_fpga_adv, if_true]
  split
  · exact hand_off_usb_last_phy_adv s
  · rfl

/-- The receive callback changes nothing but the advertisement timestamp. -/
theorem fpga_adv_byte_received_cb_frame (byte : Nat) (parity_error : Int) (now : Nat)
    (s : Switch) :
    (fpga_adv_byte_received_cb byte parity_error now s).control_to_fpga
      = s.control_to_fpga ∧
    (fpga_adv_byte_received_cb byte parity_error now s).usb_switch_level
      = s.usb_switch_level ∧
    (fpga_adv_byte_received_cb byte parity_error now s).effects = s.effects := by
  unfold fpga_adv_byte_received_cb
  split
  · exact ⟨rfl, rfl, rfl⟩
  · split
    · exact ⟨rfl, rfl, rfl⟩
    · exact ⟨rfl, rfl, rfl⟩

/-- The receive handler changes nothing but the advertisement timestamp. -/
theorem SERCOM1_Handler_frame (rxc : Bool) (data : Nat) (perr : Bool) (now : Nat)
    (s : Switch) :
    (SERCOM1_Handler rxc data perr now s).control_to_fpga = s.control_to_fpga ∧
    (SERCOM1_Handler rxc data perr now s).usb_switch_level = s.usb_switch_level ∧
    (SERCOM1_Handler rxc data perr now s).effects = s.effects := by
  unfold SERCOM1_Handler
  split
  · exact fpga_adv_byte_received_cb_frame _ _ _ _
  · exact ⟨rfl, rfl, rfl⟩

/-- C16: single-writer separation.  The receive handler and its callback leave the
ownership, the mux level and the trace as they were (no USB, mux, delay or LED call);
`hand_off_usb`, `take_over_usb`, `switch_control_task` and `honor_fpga_adv` leave the
advertisement timestamp as it was, for every input. -/
theorem single_writer_separation (s : Switch) (rxc perr button : Bool)
    (data byte now : Nat) (parity_error : Int) :
    ((SERCOM1_Handler rxc data perr now s).control_to_fpga = s.control_to_fpga ∧
      (SERCOM1_Handler rxc data perr now s).usb_switch_level = s.usb_switch_level ∧
      (SERCOM1_Handler rxc data perr now s).effects = s.effects) ∧
    ((fpga_adv_byte_received_cb byte parity_error now s).control_to_fpga
        = s.control_to_fpga ∧
      (fpga_adv_byte_received_cb byte parity_error now s).usb_switch_level
        = s.usb_switch_level ∧
      (fpga_adv_byte_received_cb byte parity_error now s).effects = s.effects) ∧
    (hand_off_usb true s).last_phy_adv = s.last_phy_adv ∧
    (take_over_usb true s).last_phy_adv = s.last_phy_adv ∧
    (switch_control_task true button now s).last_phy_adv = s.last_phy_adv ∧
    (honor_fpga_adv true now s).last_phy_adv = s.last_phy_adv := by
  exact ⟨SERCOM1_Handler_frame rxc data perr now s,
    fpga_adv_byte_received_cb_frame byte parity_error now s, hand_off_usb_last_phy_adv s,
    take_over_usb_last_phy_adv s, switch_control_task_last_phy_adv button now s,
    honor_fpga_adv_last_phy_adv now s⟩

end luna_d11

/-! ## The build without `WITH_USB_SWITCH`, and the invariants of the arbiter -/

namespace luna_d11

/-- Counterexample for C17: built without `WITH_USB_SWITCH`, the periodic task emits
nothing when the button reads high and `led_on(LED_D)` when it reads low, so it does not
always emit the single indicator effect and the button level changes what is emitted; the
task of `luna_d21` emits nothing at all. -/
theorem switch_control_task_without_switch_depends_on_button :
    (switch_control_task false true 0 ⟨false, 0, false, []⟩).effects = [] ∧
    (switch_control_task false true 0 ⟨false, 0, false, []⟩).effects ≠ [.led_on .LED_D] ∧
    (switch_control_task false false 0 ⟨false, 0, false, []⟩).effects = [.led_on .LED_D] ∧
    (switch_control_task false true 0 ⟨false, 0, false, []⟩).effects ≠
      (switch_control_task false false 0 ⟨false, 0, false, []⟩).effects ∧
    (luna_d21.switch_control_task ⟨false, 0, false, []⟩).effects = [] := by
  decide

/-- C17 (amended): without switch hardware `hand_off_usb` and `take_over_usb` each add the
single call `led_on(LED_D)` to the trace and change nothing else, in `luna_d11` built
without `WITH_USB_SWITCH` and in `luna_d21`; the periodic task of `luna_d11` adds
`led_on(LED_D)` exactly when the button reads low and nothing when it reads high,
whatever the timestamp and the tick, and the periodic task of `luna_d21` does nothing.
None of them adds a USB disconnect, a USB connect, a delay or a mux write. -/
theorem without_switch_indicator_only (s : Switch) (button : Bool) (now : Nat) :
    hand_off_usb false s = { s with effects := s.effects ++ [.led_on .LED_D] } ∧
    take_over_usb false s = { s with effects := s.effects ++ [.led_on .LED_D] } ∧
    switch_control_task false button now s =
      { s with effects := s.effects ++ (if button = false then [.led_on .LED_D] else []) } ∧
    luna_d21.hand_off_usb s = { s with effects := s.effects ++ [.led_on .LED_D] } ∧
    luna_d21.take_over_usb s = { s with effects := s.effects ++ [.led_on .LED_D] } ∧
    luna_d21.switch_control_task s = s := by
  refine ⟨?_, ?_, ?_, ?_, ?_, ?_⟩
  · simp [hand_off_usb, led_on, Switch.emit]
  · simp [take_over_usb, led_on, Switch.emit]
  · cases button <;> simp [switch_control_task, take_over_usb, led_on, Switch.emit]
  · simp [luna_d21.hand_off_usb, led_on, Switch.emit]
  · simp [luna_d21.take_over_usb, led_on, Switch.emit]
  · rfl

/-- A take-over leaves the mux on the microcontroller side when it started consistent. -/
theorem take_over_usb_consistent (s : Switch)
    (h : s.usb_switch_level = !s.control_to_fpga) :
    (take_over_usb true s).usb_switch_level = !(take_over_usb true s).control_to_fpga := by
  cases hc : s.control_to_fpga with
  | true => rw [take_over_usb_of_fpga s hc]; rfl
  | false => rw [take_over_usb_of_mcu s hc]; exact h

/-- A hand-off leaves the mux on the FPGA side when it started consistent. -/
theorem hand_off_usb_consistent (s : Switch)
    (h : s.usb_switch_level = !s.control_to_fpga) :
    (hand_off_usb true s).usb_switch_level = !(hand_off_usb true s).control_to_fpga := by
  cases hc : s.control_to_fpga with
  | true => rw [hand_off_usb_of_fpga s hc]; exact h
  | false => rw [hand_off_usb_of_mcu s hc]; rfl

/-- Every step keeps the mux level and the ownership flag consistent. -/
theorem step_consistent (op : Op) (s : Switch)
    (h : s.usb_switch_level = !s.control_to_fpga) :
    (op.step true s).usb_switch_level = !(op.step true s).control_to_fpga := by
  cases op with
  | hand_off_usb => exact hand_off_usb_consistent s h
  | take_over_usb => exact take_over_usb_consistent s h
  | switch_control_task button now =>
    simp only [Op.step, switch_control_task, if_true]
    cases button
    · simp only [beq_self_eq_true, if_true]
      split
      · exact take_over_usb_consistent s h
      · exact take_over_usb_consistent _ (take_over_usb_consistent s h)
    · simp only [Bool.true_eq_false, beq_iff_eq, if_false]
      split
      · exact h
      · exact take_over_usb_consistent s h
  | honor_fpga_adv now =>
    simp only [Op.step, honor_fpga_adv, if_true]
    split
    · exact hand_off_usb_consistent s h
    · exact h
  | SERCOM1_Handler rxc data perr now =>
    obtain ⟨h1, h2, _⟩ := SERCOM1_Handler_frame rxc data perr now s
    simp only [Op.step]
    rw [h1, h2]
    exact h

/-- Every finite run keeps the mux level and the ownership flag consistent. -/
theorem run_consistent (ops : List Op) :
    ∀ s : Switch, s.usb_switch_level = (!s.control_to_fpga) →
      (run true ops s).usb_switch_level = !(run true ops s).control_to_fpga := by
  induction ops with
  | nil => intro s h; exact h
  | cons op ops ih =>
    intro s h
    simp only [run, List.foldl_cons]
    exact ih _ (step_consistent op s h)

/-- C18: mux and ownership agree.  In every state reached from a returning
`usb_switch_init` by a finite sequence of `hand_off_usb`, `take_over_usb`,
`switch_control_task`, `honor_fpga_adv` and receive-handler steps, with any button
levels, ticks, bytes and parity flags, `USB_SWITCH` is high if and only if the
microcontroller owns the port (`control_to_fpga` is false). -/
theorem mux_matches_ownership (syncbusy : Nat → syncbusy_t) (fuel cpu now : Nat)
    (s s0 : Switch) (ops : List Op)
    (hinit : usb_switch_init true syncbusy fuel cpu now s = some s0) :
    (run true ops s0).usb_switch_level = true ↔ (run true ops s0).control_to_fpga = false := by
  have h0 : s0.usb_switch_level = !s0.control_to_fpga := by
    simp only [usb_switch_init, Bool.not_true, Bool.false_eq_true, if_false] at hinit
    rw [fpga_adv_init_some _ _ _ _ _ _ hinit]
    simp [gpio_set_pin_level, gpio_set_pin_direction, gpio_set_pin_pull_mode, Switch.emit]
  have h := run_consistent ops s0 h0
  rw [h]
  cases (run true ops s0).control_to_fpga <;> simp

/-- Witness for C18: initialisation on idle hardware, then a button press, a heartbeat
byte, a honored heartbeat and a timeout. -/
theorem mux_matches_ownership_witness :
    (run true
      [.switch_control_task false 10, .SERCOM1_Handler true 0x41 false 20,
        .honor_fpga_adv 30, .switch_control_task true 500]
      ⟨true, 0, false,
        [.gpio_set_pin_pull_mode .PROGRAM_BUTTON .GPIO_PULL_OFF,
          .gpio_set_pin_direction .PROGRAM_BUTTON .GPIO_DIRECTION_IN,
          .gpio_set_pin_direction .FPGA_INT .GPIO_DIRECTION_IN,
          .gpio_set_pin_pull_mode .FPGA_INT .GPIO_PULL_UP,
          .gpio_set_pin_direction .USB_SWITCH .GPIO_DIRECTION_OUT,
          .gpio_set_pin_level .USB_SWITCH false,
          .sercom (.CTRLA_ENABLE 0), .sercom (.CTRLA_SWRST 1),
          .sercom .gpio_set_pin_function_PA09_SERCOM1_PAD3,
          .sercom .pm_enable_bus_clock_SERCOM1,
          .sercom .gclk_enable_channel_SERCOM1_GCLK0,
          .sercom (.CTRLA_DORD_RXPO_SAMPR_FORM_RUNSTDBY_INT_CLK 3 0 1),
          .sercom (.BAUD 65326), .sercom (.CTRLB_CHSIZE_RXEN 0),
          .sercom .INTENSET_RXC, .sercom .NVIC_EnableIRQ_SERCOM1,
          .sercom (.CTRLA_ENABLE 1)]⟩).usb_switch_level = true ↔
    (run true
      [.switch_control_task false 10, .SERCOM1_Handler true 0x41 false 20,
        .honor_fpga_adv 30, .switch_control_task true 500]
      ⟨true, 0, false,
        [.gpio_set_pin_pull_mode .PROGRAM_BUTTON .GPIO_PULL_OFF,
          .gpio_set_pin_direction .PROGRAM_BUTTON .GPIO_DIRECTION_IN,
          .gpio_set_pin_direction .FPGA_INT .GPIO_DIRECTION_IN,
          .gpio_set_pin_pull_mode .FPGA_INT .GPIO_PULL_UP,
          .gpio_set_pin_direction .USB_SWITCH .GPIO_DIRECTION_OUT,
          .gpio_set_pin_level .USB_SWITCH false,
          .sercom (.CTRLA_ENABLE 0), .sercom (.CTRLA_SWRST 1),
          .sercom .gpio_set_pin_function_PA09_SERCOM1_PAD3,
          .sercom .pm_enable_bus_clock_SERCOM1,
          .sercom .gclk_enable_channel_SERCOM1_GCLK0,
          .sercom (.CTRLA_DORD_RXPO_SAMPR_FORM_RUNSTDBY_INT_CLK 3 0 1),
          .sercom (.BAUD 65326), .sercom (.CTRLB_CHSIZE_RXEN 0),
          .sercom .INTENSET_RXC, .sercom .NVIC_EnableIRQ_SERCOM1,
          .sercom (.CTRLA_ENABLE 1)]⟩).control_to_fpga = false :=
  mux_matches_ownership (fun _ => ⟨false, false, false⟩) 1 48000000 0 ⟨false, 0, true, []⟩ _
    [.switch_control_task false 10, .SERCOM1_Handler true 0x41 false 20,
      .honor_fpga_adv 30, .switch_control_task true 500]
    (by decide)

/-- C19: the periodic task never yields the port and never pulses twice.  If the
microcontroller owns the port before `switch_control_task`, the task returns the state
unchanged (same owner, nothing added to the trace); if the FPGA owns it, one call adds
either nothing or exactly one take-over sequence (one disconnect, one delay, one
connect), and exactly one also when the button is asserted while the heartbeat is stale,
where `take_over_usb` is called twice. -/
theorem switch_control_task_no_yield_no_double_pulse (s : Switch) (button : Bool)
    (now : Nat) :
    (s.control_to_fpga = false → switch_control_task true button now s = s) ∧
    (s.control_to_fpga = true →
      ((switch_control_task true button now s).effects = s.effects ∨
        (switch_control_task true button now s).effects = s.effects ++
          [.gpio_set_pin_level .USB_SWITCH true, .tud_disconnect, .board_delay 100,
            .tud_connect]) ∧
      (switch_control_task true button now s).effects.count .tud_disconnect ≤
        s.effects.count .tud_disconnect + 1 ∧
      (button = false → TIMEOUT ≤ u32_sub now s.last_phy_adv →
        (switch_control_task true button now s).effects = s.effects ++
          [.gpio_set_pin_level .USB_SWITCH true, .tud_disconnect, .board_delay 100,
            .tud_connect])) := by
  have hidem : take_over_usb true (take_over_usb true s) = take_over_usb true s :=
    take_over_usb_of_mcu _ (take_over_usb_control s)
  have key : switch_control_task true button now s = s ∨
      switch_control_task true button now s = take_over_usb true s := by
    simp only [switch_control_task, if_true]
    cases button
    · simp only [beq_self_eq_true, if_true, hidem]
      right
      split <;> rfl
    · simp only [Bool.true_eq_false, beq_iff_eq, if_false]
      split
      · left; rfl
      · right; rfl
  refine ⟨?_, ?_⟩
  · intro hc
    rcases key with h | h
    · exact h
    · rw [h, take_over_usb_of_mcu s hc]
  · intro hc
    have hto := take_over_usb_of_fpga s hc
    refine ⟨?_, ?_, ?_⟩
    · rcases key with h | h
      · left; rw [h]
      · right; rw [h, hto]
    · rcases key with h | h
      · rw [h]; omega
      · rw [h, hto]
        simp [List.count_append, List.count_cons]
    · intro hb _
      subst hb
      simp only [switch_control_task, if_true, beq_self_eq_true, hidem]
      have : (if u32_sub now (take_over_usb true s).last_phy_adv < TIMEOUT then
          take_over_usb true s else take_over_usb true s) = take_over_usb true s := by
        split <;> rfl
      rw [this, hto]

/-- Witness for C19: the FPGA owns the port, the button is asserted and the heartbeat is
stale; the two take-over requests produce one sequence. -/
theorem switch_control_task_no_yield_no_double_pulse_witness :
    (switch_control_task true false 5000 ⟨true, 1000, false, []⟩).effects = [] ++
      [.gpio_set_pin_level .USB_SWITCH true, .tud_disconnect, .board_delay 100,
        .tud_connect] :=
  ((switch_control_task_no_yield_no_double_pulse ⟨true, 1000, false, []⟩ false 5000).2
    rfl).2.2 rfl (by decide)

/-- C20: complementary freshness tests.  For every timestamp and tick exactly one of the
hand-off condition `(now - T) mod 2 ^ 32 < 100` of `honor_fpga_adv` and the timeout
condition `(now - T) mod 2 ^ 32 >= 100` of `switch_control_task` holds; with the button
not asserted and the same timestamp and tick, `honor_fpga_adv` followed by
`switch_control_task` ends with the FPGA owning the port if and only if
`(now - T) mod 2 ^ 32 < 100`, whatever the prior ownership. -/
theorem honor_then_task_fpga_iff_fresh (s : Switch) (now : Nat) :
    ((u32_sub now s.last_phy_adv < TIMEOUT ∧ ¬ TIMEOUT ≤ u32_sub now s.last_phy_adv) ∨
      (¬ u32_sub now s.last_phy_adv < TIMEOUT ∧ TIMEOUT ≤ u32_sub now s.last_phy_adv)) ∧
    ((switch_control_task true true now (honor_fpga_adv true now s)).control_to_fpga = true ↔
      u32_sub now s.last_phy_adv < TIMEOUT) := by
  refine ⟨by omega, ?_⟩
  have hts := honor_fpga_adv_last_phy_adv now s
  by_cases hf : u32_sub now s.last_phy_adv < TIMEOUT
  · have hh : honor_fpga_adv true now s = hand_off_usb true s := by
      simp only [honor_fpga_adv, if_true, if_pos hf]
    have ht : switch_control_task true true now (honor_fpga_adv true now s) =
        honor_fpga_adv true now s := by
      simp only [switch_control_task, Bool.true_eq_false, beq_iff_eq, if_false, if_true]
      rw [hts, if_pos hf]
    rw [ht, hh]
    simp only [hand_off_usb_control, hf]
  · have hh : honor_fpga_adv true now s = s := by
      simp only [honor_fpga_adv, if_true, if_neg hf]
    have ht : switch_control_task true true now s = take_over_usb true s := by
      simp only [switch_control_task, Bool.true_eq_false, beq_iff_eq, if_false, if_true]
      rw [if_neg hf]
    rw [hh, ht, take_over_usb_control]
    simp [hf]

end luna_d11

/-! ## Properties of the PROGRAM control line -/

namespace luna_d11_fpga

open luna_d11 (gpio_direction)

/-- C13: PROGRAM line two-state machine.  Whatever the pin was before: `fpga_io_init`
ends in Released (input, high); `trigger_fpga_reconfiguration` drives the pin as an
output, low, keeps it so during a 1 ms delay and ends in Released, so Held-Low is only
visited in between; `force_fpga_offline` ends in Held-Low (output, low) without releasing
it.  After any sequence of operations the pin is Held-Low exactly when the last one was
`force_fpga_offline`, so it stays Held-Low under further `force_fpga_offline` calls and
is released only by `trigger_fpga_reconfiguration` or `fpga_io_init`. -/
theorem program_line_two_states (p : Program) (op : Op) :
    ((fpga_io_init p).direction = .GPIO_DIRECTION_IN ∧ (fpga_io_init p).level = true) ∧
    ((trigger_fpga_reconfiguration p).calls = p.calls ++
        [.gpio_set_pin_direction .GPIO_DIRECTION_OUT, .gpio_set_pin_level false,
          .board_delay 1, .gpio_set_pin_level true,
          .gpio_set_pin_direction .GPIO_DIRECTION_IN] ∧
      trigger_fpga_reconfiguration p =
        fpga_io_init (board_delay 1 (force_fpga_offline p)) ∧
      (board_delay 1 (force_fpga_offline p)).direction = .GPIO_DIRECTION_OUT ∧
      (board_delay 1 (force_fpga_offline p)).level = false ∧
      (trigger_fpga_reconfiguration p).direction = .GPIO_DIRECTION_IN ∧
      (trigger_fpga_reconfiguration p).level = true) ∧
    ((force_fpga_offline p).direction = .GPIO_DIRECTION_OUT ∧
      (force_fpga_offline p).level = false ∧
      (force_fpga_offline p).calls = p.calls ++
        [.gpio_set_pin_direction .GPIO_DIRECTION_OUT, .gpio_set_pin_level false]) ∧
    ((force_fpga_offline (force_fpga_offline p)).direction = .GPIO_DIRECTION_OUT ∧
      (force_fpga_offline (force_fpga_offline p)).level = false) ∧
    (((op.step p).direction = .GPIO_DIRECTION_OUT ∧ (op.step p).level = false) ↔
      op = .force_fpga_offline) ∧
    (((op.step p).direction = .GPIO_DIRECTION_IN ∧ (op.step p).level = true) ↔
      (op = .fpga_io_init ∨ op = .trigger_fpga_reconfiguration)) := by
  refine ⟨?_, ?_, ?_, ?_, ?_, ?_⟩
  · simp [fpga_io_init, gpio_set_pin_level, gpio_set_pin_direction]
  · simp [trigger_fpga_reconfiguration, fpga_io_init, force_fpga_offline, board_delay,
      gpio_set_pin_level, gpio_set_pin_direction]
  · simp [force_fpga_offline, gpio_set_pin_level, gpio_set_pin_direction]
  · simp [force_fpga_offline, gpio_set_pin_level, gpio_set_pin_direction]
  · cases op <;>
      simp [Op.step, trigger_fpga_reconfiguration, fpga_io_init, force_fpga_offline,
        board_delay, gpio_set_pin_level, gpio_set_pin_direction]
  · cases op <;>
      simp [Op.step, trigger_fpga_reconfiguration, fpga_io_init, force_fpga_offline,
        board_delay, gpio_set_pin_level, gpio_set_pin_direction]

end luna_d11_fpga
